import Mathlib

/-!
# Verification of the PAXG arbitrage monitor core (`paxg_monitor.py`)

A shallow embedding of the monitor's core into Lean 4:

* `calculate_orderbook_spread` — the liquidity-weighted depth pricer.
  Python `Decimal` arithmetic is modelled by exact rationals (`ℚ`); the
  Python `for`-loop with its early `break` on `remaining <= 0` becomes the
  structural recursion `fillAcc`.
* `fetch_all_data` — the cycle orchestrator: `asyncio.gather` with
  `return_exceptions=True` is modelled by a per-operation outcome function
  `String → Except ε α`; the result-dict assembly loop becomes a `List.map`
  over the fixed operation-key list.
* `process_and_write` and the six `_write_*` record builders — JSON objects
  are modelled as association lists `List (String × JVal)`; the `.get`
  defaulting calls become `Option.getD`.  A possible `IOError` raised by
  `_append_jsonl` (which the Python code does *not* catch) is modelled by a
  failure predicate on file names, with exception propagation modelled by
  aborting the remaining appends.
-/

namespace PaxgMonitor

/-- One side of an order book: a list of (price, quantity) levels,
best price first.  Python strings/floats are converted through `Decimal`,
modelled by `ℚ`. -/
abbrev Level := ℚ × ℚ

/-- The order book passed to `calculate_orderbook_spread`
(`orderbook.get("bids", [])` / `orderbook.get("asks", [])`). -/
structure Orderbook where
  bids : List Level
  asks : List Level
deriving DecidableEq, Repr

/-- The empty dict orderbook (`raw_data.get("orderbook") or {}`). -/
def Orderbook.empty : Orderbook := ⟨[], []⟩

/-- The loop of `calculate_orderbook_spread` for one side, accumulating
`(qty_sum, value_sum)`:

```python
for price, qty in levels:
    remaining = target - qty_sum
    if remaining <= 0: break
    fill_qty = min(qty, remaining)
    qty_sum += fill_qty
    value_sum += fill_qty * price
```
-/
def fillAcc (target : ℚ) : List Level → ℚ × ℚ → ℚ × ℚ
  | [], st => st
  | (price, qty) :: rest, (qty_sum, value_sum) =>
      let remaining := target - qty_sum
      if remaining ≤ 0 then (qty_sum, value_sum)
      else fillAcc target rest
        (qty_sum + min qty remaining, value_sum + min qty remaining * price)

/-- The pair `(qty_sum, value_sum)` for a whole side, started from `(0, 0)`. -/
def sideFill (levels : List Level) (target : ℚ) : ℚ × ℚ :=
  fillAcc target levels (0, 0)

/-- The side's weighted average price:
`value_sum / qty_sum` if `qty_sum > 0`, else the initial `Decimal("0")`. -/
def sideAvg (levels : List Level) (target : ℚ) : ℚ :=
  let f := sideFill levels target
  if f.1 > 0 then f.2 / f.1 else 0

/-- Result dict of `calculate_orderbook_spread`. -/
structure SpreadInfo where
  bid_price : ℚ
  ask_price : ℚ
  spread : ℚ
  mid_price : ℚ
deriving DecidableEq, Repr

/-- The function `calculate_orderbook_spread(orderbook, target_quantity)`.

The two per-side loops are `sideAvg` on `bids` and `asks`.  The Python
truthiness guard `if ask_avg_price and bid_avg_price` on `Decimal` values
is the test that both are nonzero. -/
def calculate_orderbook_spread (orderbook : Orderbook) (target_quantity : ℚ) :
    SpreadInfo :=
  let bid_avg_price := sideAvg orderbook.bids target_quantity
  let ask_avg_price := sideAvg orderbook.asks target_quantity
  let spread :=
    if ask_avg_price ≠ 0 ∧ bid_avg_price ≠ 0 then ask_avg_price - bid_avg_price
    else 0
  let mid_price :=
    if ask_avg_price ≠ 0 ∧ bid_avg_price ≠ 0 then (ask_avg_price + bid_avg_price) / 2
    else 0
  ⟨bid_avg_price, ask_avg_price, spread, mid_price⟩

/-- Total quantity of a list of (price, quantity) pairs. -/
def wsum (l : List Level) : ℚ := (l.map Prod.snd).sum

/-- Total notional value `Σ fill_qty * price` of a list of
(price, quantity) pairs (`value_sum += fill_qty * price`). -/
def vsum (l : List Level) : ℚ := (l.map (fun pw => pw.2 * pw.1)).sum

/-- The (price, fill quantity) pairs the side loop actually consumes,
parameterised by the quantity already accumulated. -/
def consumedAux (target : ℚ) : List Level → ℚ → List Level
  | [], _ => []
  | (price, qty) :: rest, qty_sum =>
      let remaining := target - qty_sum
      if remaining ≤ 0 then []
      else (price, min qty remaining) ::
        consumedAux target rest (qty_sum + min qty remaining)

/-- The (price, fill quantity) pairs consumed by a fresh walk of a side. -/
def consumed (levels : List Level) (target : ℚ) : List Level :=
  consumedAux target levels 0

/-! ## Cycle orchestrator: `fetch_all_data`

`asyncio.gather(*tasks.values(), return_exceptions=True)` waits for all
seven operations and yields, per operation, either its payload or the
exception it raised; the following dict-building loop stores the payload
or `None`.  The per-operation outcome is a function `String → Except ε α`;
the loop over `zip(tasks.keys(), gathered)` is a map over the fixed key
list. -/

/-- The exact keys of the task dict in `fetch_all_data`, in insertion
order. -/
def opNames : List String :=
  ["ticker", "orderbook", "kline", "basis", "open_interest_hist",
   "funding_rate", "premium_index"]

/-- The orchestrator `fetch_all_data`: assemble the results dict, storing `None`
(`Option.none`) for an operation whose task raised. -/
def fetch_all_data {ε α : Type} (gathered : String → Except ε α) :
    List (String × Option α) :=
  opNames.map (fun key =>
    (key, match gathered key with
          | .ok payload => some payload
          | .error _ => none))

/-! ## Record builder and sink

JSON objects are association lists over `JVal`; Python dict `.get` with a
default is `Option.getD`.  `raw_data` is a typed view of the results dict
assembled by `fetch_all_data`. -/

/-- A JSON value as written to the JSONL files: string, number
(via `float(...)` of a `Decimal`, modelled exactly), or integer
timestamp. -/
inductive JVal where
  | s (v : String)
  | n (v : ℚ)
  | i (v : ℤ)
deriving DecidableEq, Repr

/-- Fields of the `/fapi/v1/ticker/24hr` payload the monitor reads. -/
structure Ticker where
  volume : Option String
  quoteVolume : Option String
deriving DecidableEq, Repr

/-- One `/futures/data/basis` entry; fields the monitor reads. -/
structure BasisEntry where
  indexPrice : Option String
  contractType : Option String
  basisRate : Option String
  futuresPrice : Option String
  annualizedBasisRate : Option String
  basis : Option String
  timestamp : Option ℤ
deriving DecidableEq, Repr

/-- One `/futures/data/openInterestHist` entry; fields the monitor
reads. -/
structure OIEntry where
  sumOpenInterest : Option String
  sumOpenInterestValue : Option String
  timestamp : Option ℤ
deriving DecidableEq, Repr

/-- One `/fapi/v1/fundingRate` entry; field the monitor reads. -/
structure FundingEntry where
  fundingRate : Option String
deriving DecidableEq, Repr

/-- Field of the `/fapi/v1/premiumIndex` payload the monitor reads. -/
structure PremiumIndex where
  lastFundingRate : Option String
deriving DecidableEq, Repr

/-- The `raw_data` results dict handed to `process_and_write`: one entry
per operation, `none` when the fetch failed.  A kline row is a list of
numbers with the close price at index 4. -/
structure RawData where
  ticker : Option Ticker
  orderbook : Option Orderbook
  kline : Option (List (List ℚ))
  basis : Option (List BasisEntry)
  open_interest_hist : Option (List OIEntry)
  funding_rate : Option (List FundingEntry)
  premium_index : Option PremiumIndex
deriving DecidableEq, Repr

/-- A record is the flat JSON object written as one line. -/
abbrev MetricRecord := List (String × JVal)

/-- Record body of `_write_price`.  `kline = raw_data.get("kline") or [[]]`
(`None` and `[]` are both falsy); `orderbook or {}` likewise;
`close_price = float(kline[0][4]) if kline and len(kline[0]) > 4 else 0`
(after the `or`, `kline` is always truthy). -/
def write_price (raw : RawData) (target_oz : ℚ) (timestamp : ℤ) :
    MetricRecord :=
  let kl := raw.kline.getD []
  let kline := if kl = [] then [[]] else kl
  let row := kline.headD []
  let close_price : ℚ := if row.length > 4 then row.getD 4 0 else 0
  let orderbook := raw.orderbook.getD Orderbook.empty
  let spread_info := calculate_orderbook_spread orderbook target_oz
  [("timestamp", .i timestamp),
   ("price", .n close_price),
   ("mid_price", .n spread_info.mid_price)]

/-- Record body of `_write_basis_rate` (`basis_list = raw_data.get("basis")
or []`; nonempty list uses its first entry's fields with a dict-level
default, and `basis.get("timestamp", timestamp)` prefers the payload's own
timestamp). -/
def write_basis_rate (raw : RawData) (pair : String) (timestamp : ℤ) :
    MetricRecord :=
  match raw.basis.getD [] with
  | b :: _ =>
      [("indexPrice", .s (b.indexPrice.getD "")),
       ("contractType", .s (b.contractType.getD "PERPETUAL")),
       ("basisRate", .s (b.basisRate.getD "")),
       ("futuresPrice", .s (b.futuresPrice.getD "")),
       ("annualizedBasisRate", .s (b.annualizedBasisRate.getD "")),
       ("basis", .s (b.basis.getD "")),
       ("pair", .s pair),
       ("timestamp", .i (b.timestamp.getD timestamp))]
  | [] =>
      [("indexPrice", .s ""),
       ("contractType", .s "PERPETUAL"),
       ("basisRate", .s ""),
       ("futuresPrice", .s ""),
       ("annualizedBasisRate", .s ""),
       ("basis", .s ""),
       ("pair", .s pair),
       ("timestamp", .i timestamp)]

/-- Record body of `_write_open_interest` (same shape:
`oi.get("timestamp", timestamp)` prefers the payload's timestamp). -/
def write_open_interest (raw : RawData) (symbol : String) (timestamp : ℤ) :
    MetricRecord :=
  match raw.open_interest_hist.getD [] with
  | oi :: _ =>
      [("symbol", .s symbol),
       ("sumOpenInterest", .s (oi.sumOpenInterest.getD "")),
       ("sumOpenInterestValue", .s (oi.sumOpenInterestValue.getD "")),
       ("timestamp", .i (oi.timestamp.getD timestamp))]
  | [] =>
      [("symbol", .s symbol),
       ("sumOpenInterest", .s ""),
       ("sumOpenInterestValue", .s ""),
       ("timestamp", .i timestamp)]

/-- The funding-rate value `_write_funding_rate` selects:
`premium.get("lastFundingRate", "")`, overridden by
`funding_list[0].get("fundingRate", "")` when the former is falsy (the
empty string) and the list is nonempty. -/
def funding_rate_value (raw : RawData) : String :=
  let funding_list := raw.funding_rate.getD []
  let funding_rate := (raw.premium_index.bind PremiumIndex.lastFundingRate).getD ""
  if funding_rate = "" ∧ funding_list ≠ [] then
    ((funding_list.headD ⟨none⟩).fundingRate).getD ""
  else funding_rate

/-- Record body of `_write_funding_rate`. -/
def write_funding_rate (raw : RawData) (symbol : String) (timestamp : ℤ) :
    MetricRecord :=
  [("symbol", .s symbol),
   ("fundingRate", .s (funding_rate_value raw)),
   ("timestamp", .i timestamp)]

/-- Record body of `_write_volume` (`ticker = raw_data.get("ticker") or {}`,
then `ticker.get(..., "")`). -/
def write_volume (raw : RawData) (symbol : String) (timestamp : ℤ) :
    MetricRecord :=
  [("symbol", .s symbol),
   ("volume", .s ((raw.ticker.bind Ticker.volume).getD "")),
   ("quoteVolume", .s ((raw.ticker.bind Ticker.quoteVolume).getD "")),
   ("timestamp", .i timestamp)]

/-- Record body of `_write_spread`. -/
def write_spread (raw : RawData) (target_oz : ℚ) (symbol : String)
    (timestamp : ℤ) : MetricRecord :=
  let orderbook := raw.orderbook.getD Orderbook.empty
  let spread_info := calculate_orderbook_spread orderbook target_oz
  [("symbol", .s symbol),
   ("spread", .n spread_info.spread),
   ("timestamp", .i timestamp)]

/-- The six (file key, record) pairs of one cycle, in the order
`process_and_write` emits them. -/
def cycleRecords (raw : RawData) (symbol pair : String) (target_oz : ℚ)
    (timestamp : ℤ) : List (String × MetricRecord) :=
  [("price", write_price raw target_oz timestamp),
   ("basisRate", write_basis_rate raw pair timestamp),
   ("openinterest", write_open_interest raw symbol timestamp),
   ("fundingRate", write_funding_rate raw symbol timestamp),
   ("volume_24h", write_volume raw symbol timestamp),
   ("spread", write_spread raw target_oz symbol timestamp)]

/-- Running the appends of `process_and_write`: `_append_jsonl` opens the
file and writes; it catches nothing.  `fail` says which file's append
raises `IOError`.  The run returns the records actually appended and, when
an append raised, the file on which the uncaught exception escaped —
aborting every later append of the cycle, as uncaught Python exceptions
do. -/
def runAppends (fail : String → Bool) :
    List (String × MetricRecord) → List (String × MetricRecord) × Option String
  | [] => ([], none)
  | (file, rec) :: rest =>
      if fail file then ([], some file)
      else
        let out := runAppends fail rest
        ((file, rec) :: out.1, out.2)

/-- The sink `process_and_write(raw_data)` under an append-failure environment:
builds the six records with one shared `timestamp = int(time.time()*1000)`
and appends them in order. -/
def process_and_write (fail : String → Bool) (raw : RawData)
    (symbol pair : String) (target_oz : ℚ) (timestamp : ℤ) :
    List (String × MetricRecord) × Option String :=
  runAppends fail (cycleRecords raw symbol pair target_oz timestamp)


/-! ### Concrete cycle inputs used to exercise the theorems -/

/-- A cycle in which every fetch failed. -/
def rawNone : RawData := ⟨none, none, none, none, none, none, none⟩

/-- A cycle whose basis payload carries its own timestamp `42`. -/
def rawBasisTs : RawData :=
  { rawNone with basis := some [⟨none, none, none, none, none, none, some 42⟩] }

/-- A cycle where the premium index is present but its last funding rate
is the empty string, while funding-rate history has an entry. -/
def rawFundingEmpty : RawData :=
  { rawNone with
      premium_index := some ⟨some ""⟩,
      funding_rate := some [⟨some "0.0001"⟩] }

/-- A cycle where the order-book fetch failed but ticker and kline
succeeded. -/
def rawTickerKline : RawData :=
  { rawNone with
      ticker := some ⟨some "123.4", some "56789.0"⟩,
      kline := some [[1, 2, 3, 4, 5]] }

/-- A gather outcome where only the order-book task raised. -/
def gatherEx : String → Except String Nat :=
  fun key => if key = "orderbook" then .error "timeout" else .ok 7

/-- An append environment where only the price file's append raises. -/
def failPrice : String → Bool := fun file => file == "price"

theorem wsum_nil : wsum [] = 0 := rfl

theorem wsum_cons (pq : Level) (l : List Level) :
    wsum (pq :: l) = pq.2 + wsum l := by
  simp [wsum]

theorem vsum_nil : vsum [] = 0 := rfl

theorem vsum_cons (pq : Level) (l : List Level) :
    vsum (pq :: l) = pq.2 * pq.1 + vsum l := by
  simp [vsum]

theorem wsum_nonneg (l : List Level) (hq : ∀ pq ∈ l, 0 ≤ pq.2) :
    0 ≤ wsum l := by
  induction l with
  | nil => simp [wsum]
  | cons hd tl ih =>
      rw [wsum_cons]
      have h1 := hq hd (List.mem_cons_self hd tl)
      have h2 := ih (fun pq hpq => hq pq (List.mem_cons_of_mem hd hpq))
      linarith

/-- The accumulator loop is the initial state plus the totals of the
consumed fills. -/
theorem fillAcc_eq_consumed (target : ℚ) (levels : List Level) :
    ∀ qs vs, fillAcc target levels (qs, vs) =
      (qs + wsum (consumedAux target levels qs),
       vs + vsum (consumedAux target levels qs)) := by
  induction levels with
  | nil => intro qs vs; simp [fillAcc, consumedAux, wsum, vsum]
  | cons hd tl ih =>
      intro qs vs
      obtain ⟨p, q⟩ := hd
      by_cases h : target - qs ≤ 0
      · simp [fillAcc, consumedAux, h, wsum, vsum]
      · simp only [fillAcc, consumedAux, h, if_neg, not_false_iff]
        rw [ih, wsum_cons, vsum_cons]
        simp only [Prod.mk.injEq]
        constructor <;> ring

/-- Consumed fill quantities are nonnegative when the book's quantities
are. -/
theorem consumedAux_snd_nonneg (target : ℚ) (levels : List Level)
    (hq : ∀ pq ∈ levels, 0 ≤ pq.2) :
    ∀ qs, ∀ pw ∈ consumedAux target levels qs, 0 ≤ pw.2 := by
  induction levels with
  | nil => intro qs pw hpw; simp [consumedAux] at hpw
  | cons hd tl ih =>
      intro qs pw hpw
      obtain ⟨p, q⟩ := hd
      by_cases h : target - qs ≤ 0
      · simp [consumedAux, h] at hpw
      · simp only [consumedAux, h, if_neg, not_false_iff, List.mem_cons] at hpw
        rcases hpw with hpw | hpw
        · subst hpw
          have hq0 : (0 : ℚ) ≤ q := hq (p, q) (List.mem_cons_self _ _)
          exact le_min hq0 (by linarith [not_le.mp h])
        · exact ih (fun pq hpq => hq pq (List.mem_cons_of_mem _ hpq)) _ pw hpw

/-- Filled quantity: starting below the target, the loop fills
`min target (start + total depth)`. -/
theorem fillAcc_fst (target : ℚ) (levels : List Level)
    (hq : ∀ pq ∈ levels, 0 ≤ pq.2) :
    ∀ qs vs, qs ≤ target →
      (fillAcc target levels (qs, vs)).1 = min target (qs + wsum levels) := by
  induction levels with
  | nil =>
      intro qs vs hle
      simp [fillAcc, wsum, min_eq_right, hle]
  | cons hd tl ih =>
      intro qs vs hle
      obtain ⟨p, q⟩ := hd
      have hq0 : (0 : ℚ) ≤ q := hq (p, q) (List.mem_cons_self _ _)
      have htl : ∀ pq ∈ tl, (0:ℚ) ≤ pq.2 :=
        fun pq hpq => hq pq (List.mem_cons_of_mem _ hpq)
      have hwtl : 0 ≤ wsum tl := wsum_nonneg tl htl
      by_cases h : target - qs ≤ 0
      · have hqe : qs = target := le_antisymm hle (by linarith)
        simp only [fillAcc, h, if_pos]
        rw [wsum_cons, hqe]
        have : target ≤ target + (q + wsum tl) := by linarith
        simp [min_eq_left this]
      · have hrem : 0 < target - qs := by linarith
        simp only [fillAcc, h, if_neg, not_false_iff]
        by_cases hmq : q ≤ target - qs
        · rw [min_eq_left hmq] at *
          rw [ih htl (qs + q) _ (by linarith), wsum_cons]
          congr 1
          ring
        · push_neg at hmq
          rw [min_eq_right (le_of_lt hmq)]
          rw [ih htl (qs + (target - qs)) _ (by linarith), wsum_cons]
          have h1 : qs + (target - qs) = target := by ring
          rw [h1]
          rw [min_eq_left (by linarith), min_eq_left (by linarith)]

/-- Exhaustion: when the whole side's depth is below the target, every
level is consumed in full. -/
theorem fillAcc_full (target : ℚ) (levels : List Level)
    (hq : ∀ pq ∈ levels, 0 ≤ pq.2) :
    ∀ qs vs, qs + wsum levels < target →
      fillAcc target levels (qs, vs) = (qs + wsum levels, vs + vsum levels) ∧
      consumedAux target levels qs = levels := by
  induction levels with
  | nil =>
      intro qs vs _
      simp [fillAcc, consumedAux, wsum, vsum]
  | cons hd tl ih =>
      intro qs vs hlt
      obtain ⟨p, q⟩ := hd
      have hq0 : (0 : ℚ) ≤ q := hq (p, q) (List.mem_cons_self _ _)
      have htl : ∀ pq ∈ tl, (0:ℚ) ≤ pq.2 :=
        fun pq hpq => hq pq (List.mem_cons_of_mem _ hpq)
      have hwtl : 0 ≤ wsum tl := wsum_nonneg tl htl
      rw [wsum_cons] at hlt
      dsimp only at hlt
      have h : ¬ target - qs ≤ 0 := by push_neg; linarith
      have hmq : q ≤ target - qs := by linarith
      have hrec := ih htl (qs + q) (vs + q * p) (by linarith)
      constructor
      · simp only [fillAcc, h, if_neg, not_false_iff, min_eq_left hmq]
        rw [hrec.1, wsum_cons, vsum_cons]
        simp only [Prod.mk.injEq]
        constructor <;> ring
      · simp only [consumedAux, h, if_neg, not_false_iff, min_eq_left hmq]
        rw [hrec.2]

/-- A nonnegatively weighted sum of bounded prices is bounded. -/
theorem convex_bound (c : List Level) (lo hi : ℚ)
    (hw : ∀ pw ∈ c, 0 ≤ pw.2) (hp : ∀ pw ∈ c, lo ≤ pw.1 ∧ pw.1 ≤ hi) :
    lo * wsum c ≤ vsum c ∧ vsum c ≤ hi * wsum c := by
  induction c with
  | nil => simp [wsum, vsum]
  | cons hd tl ih =>
      obtain ⟨p, w⟩ := hd
      have hw0 : (0:ℚ) ≤ w := hw (p, w) (List.mem_cons_self _ _)
      have hp0 := hp (p, w) (List.mem_cons_self _ _)
      have ihtl := ih (fun pw hpw => hw pw (List.mem_cons_of_mem _ hpw))
        (fun pw hpw => hp pw (List.mem_cons_of_mem _ hpw))
      rw [wsum_cons, vsum_cons]
      constructor
      · have : lo * w ≤ w * p := by nlinarith [hp0.1]
        nlinarith [ihtl.1]
      · have : w * p ≤ hi * w := by nlinarith [hp0.2]
        nlinarith [ihtl.2]

/-- With nothing filled yet and no remaining demand, the loop stops at its
current state. -/
theorem fillAcc_stop (target : ℚ) (levels : List Level) (qs vs : ℚ)
    (h : target - qs ≤ 0) : fillAcc target levels (qs, vs) = (qs, vs) := by
  cases levels with
  | nil => rfl
  | cons hd tl => obtain ⟨p, q⟩ := hd; simp [fillAcc, h]

/-- An empty side accumulates nothing and its average stays `0`. -/
theorem sideAvg_nil (target : ℚ) : sideAvg [] target = 0 := by
  simp [sideAvg, sideFill, fillAcc]

/-- A nonpositive target accumulates nothing (the first iteration breaks). -/
theorem sideAvg_nonpos (levels : List Level) (target : ℚ) (h : target ≤ 0) :
    sideAvg levels target = 0 := by
  have hstop : fillAcc target levels (0, 0) = (0, 0) :=
    fillAcc_stop _ _ _ _ (by linarith)
  simp only [sideAvg, sideFill, hstop]
  norm_num

/-- If the bid average is `0` (`Decimal` falsy), spread and mid are `0`. -/
theorem spread_zero_of_bid_zero (ob : Orderbook) (t : ℚ)
    (h : sideAvg ob.bids t = 0) :
    (calculate_orderbook_spread ob t).spread = 0 ∧
      (calculate_orderbook_spread ob t).mid_price = 0 := by
  simp [calculate_orderbook_spread, h]

/-- If the ask average is `0` (`Decimal` falsy), spread and mid are `0`. -/
theorem spread_zero_of_ask_zero (ob : Orderbook) (t : ℚ)
    (h : sideAvg ob.asks t = 0) :
    (calculate_orderbook_spread ob t).spread = 0 ∧
      (calculate_orderbook_spread ob t).mid_price = 0 := by
  simp [calculate_orderbook_spread, h]

/-- Convexity of the side average under a feasible target. -/
theorem sideAvg_convex (levels : List Level) (t lo hi : ℚ)
    (hq : ∀ pq ∈ levels, 0 ≤ pq.2) (ht : 0 < t) (htot : t ≤ wsum levels)
    (hb : ∀ pw ∈ consumed levels t, lo ≤ pw.1 ∧ pw.1 ≤ hi) :
    lo ≤ sideAvg levels t ∧ sideAvg levels t ≤ hi := by
  have hfst : (fillAcc t levels (0, 0)).1 = t := by
    rw [fillAcc_fst t levels hq 0 0 (le_of_lt ht)]
    rw [zero_add, min_eq_left htot]
  have heq := fillAcc_eq_consumed t levels 0 0
  have hw : wsum (consumed levels t) = t := by
    have h1 := congrArg Prod.fst heq
    rw [hfst] at h1
    simpa [consumed] using h1.symm
  have hv : (fillAcc t levels (0, 0)).2 = vsum (consumed levels t) := by
    have h2 := congrArg Prod.snd heq
    simpa [consumed] using h2
  have hcb := convex_bound (consumed levels t) lo hi
    (consumedAux_snd_nonneg t levels hq 0) hb
  rw [hw] at hcb
  have havg : sideAvg levels t = vsum (consumed levels t) / t := by
    simp only [sideAvg, sideFill, hfst, hv]
    rw [if_pos ht]
  rw [havg]
  constructor
  · rw [le_div_iff ht]; exact hcb.1
  · rw [div_le_iff ht]; exact hcb.2

/-- When the side's depth is positive but below the target, every level is
consumed in full and the average is total notional over total depth. -/
theorem side_exhaustion (levels : List Level) (t : ℚ)
    (hq : ∀ pq ∈ levels, 0 ≤ pq.2) (hpos : 0 < wsum levels)
    (hlt : wsum levels < t) :
    consumed levels t = levels ∧ (sideFill levels t).1 = wsum levels ∧
      sideAvg levels t = vsum levels / wsum levels := by
  have hfull := fillAcc_full t levels hq 0 0 (by linarith)
  have h1 : sideFill levels t = (wsum levels, vsum levels) := by
    rw [sideFill, hfull.1]; simp
  refine ⟨by simpa [consumed] using hfull.2, by rw [h1], ?_⟩
  simp only [sideAvg, h1]
  rw [if_pos hpos]

/-- C2: on bids `[(100,1),(99,3)]`, asks `[(101,2),(102,5)]`, target 2,
`calculate_orderbook_spread` returns bid weighted price exactly 99.5,
ask weighted price exactly 101, spread exactly 1.5 and mid price exactly
100.25. -/
theorem spread_example_eval :
    calculate_orderbook_spread ⟨[(100, 1), (99, 3)], [(101, 2), (102, 5)]⟩ 2 =
      ⟨(99.5 : ℚ), 101, (1.5 : ℚ), (100.25 : ℚ)⟩ := by
  norm_num [calculate_orderbook_spread, sideAvg, sideFill, fillAcc, min_def]

/-- C3: whenever a side's weighted price is absent — empty side, or a
nonpositive target (zero fill) — the spread and mid price are exactly 0,
the absent side's price is reported as 0, and the other side's weighted
price is still the normal side computation. -/
theorem absent_side_zero (ob : Orderbook) (t : ℚ) :
    (t ≤ 0 → calculate_orderbook_spread ob t = ⟨0, 0, 0, 0⟩) ∧
    (ob.bids = [] →
      (calculate_orderbook_spread ob t).bid_price = 0 ∧
      (calculate_orderbook_spread ob t).spread = 0 ∧
      (calculate_orderbook_spread ob t).mid_price = 0 ∧
      (calculate_orderbook_spread ob t).ask_price = sideAvg ob.asks t) ∧
    (ob.asks = [] →
      (calculate_orderbook_spread ob t).ask_price = 0 ∧
      (calculate_orderbook_spread ob t).spread = 0 ∧
      (calculate_orderbook_spread ob t).mid_price = 0 ∧
      (calculate_orderbook_spread ob t).bid_price = sideAvg ob.bids t) := by
  refine ⟨fun h0 => ?_, fun hb => ?_, fun ha => ?_⟩
  · have h1 : sideAvg ob.bids t = 0 := sideAvg_nonpos _ _ h0
    have h2 : sideAvg ob.asks t = 0 := sideAvg_nonpos _ _ h0
    simp [calculate_orderbook_spread, h1, h2]
  · have h1 : sideAvg ob.bids t = 0 := by rw [hb]; exact sideAvg_nil t
    have h23 := spread_zero_of_bid_zero ob t h1
    exact ⟨h1, h23.1, h23.2, rfl⟩
  · have h1 : sideAvg ob.asks t = 0 := by rw [ha]; exact sideAvg_nil t
    have h23 := spread_zero_of_ask_zero ob t h1
    exact ⟨h1, h23.1, h23.2, rfl⟩

/-- C3 witness: empty bids, asks `[(101,2)]`, target 2. -/
theorem absent_side_zero_witness :
    (calculate_orderbook_spread ⟨[], [(101, 2)]⟩ 2).bid_price = 0 ∧
    (calculate_orderbook_spread ⟨[], [(101, 2)]⟩ 2).spread = 0 ∧
    (calculate_orderbook_spread ⟨[], [(101, 2)]⟩ 2).mid_price = 0 ∧
    (calculate_orderbook_spread ⟨[], [(101, 2)]⟩ 2).ask_price =
      sideAvg [(101, 2)] 2 :=
  (absent_side_zero ⟨[], [(101, 2)]⟩ 2).2.1 rfl

/-- C4: for a positive target within a side's total depth, the weighted
price `calculate_orderbook_spread` computes for that side lies between any
lower and upper bound of the consumed levels' prices — in particular
between their minimum and maximum (a convex combination). -/
theorem weighted_price_convex (ob : Orderbook) (t lo hi : ℚ) :
    ((∀ pq ∈ ob.bids, 0 ≤ pq.2) → 0 < t → t ≤ wsum ob.bids →
      (∀ pw ∈ consumed ob.bids t, lo ≤ pw.1 ∧ pw.1 ≤ hi) →
      lo ≤ (calculate_orderbook_spread ob t).bid_price ∧
        (calculate_orderbook_spread ob t).bid_price ≤ hi) ∧
    ((∀ pq ∈ ob.asks, 0 ≤ pq.2) → 0 < t → t ≤ wsum ob.asks →
      (∀ pw ∈ consumed ob.asks t, lo ≤ pw.1 ∧ pw.1 ≤ hi) →
      lo ≤ (calculate_orderbook_spread ob t).ask_price ∧
        (calculate_orderbook_spread ob t).ask_price ≤ hi) :=
  ⟨fun h1 h2 h3 h4 => sideAvg_convex ob.bids t lo hi h1 h2 h3 h4,
   fun h1 h2 h3 h4 => sideAvg_convex ob.asks t lo hi h1 h2 h3 h4⟩

/-- C4 witness: bids `[(100,1),(99,3)]`, target 2, bounds 99 and 100. -/
theorem weighted_price_convex_witness :
    99 ≤ (calculate_orderbook_spread ⟨[(100, 1), (99, 3)], []⟩ 2).bid_price ∧
      (calculate_orderbook_spread ⟨[(100, 1), (99, 3)], []⟩ 2).bid_price ≤ 100 :=
  (weighted_price_convex ⟨[(100, 1), (99, 3)], []⟩ 2 99 100).1
    (by intro pq hpq; simp at hpq; rcases hpq with h | h <;> simp [h])
    (by norm_num)
    (by norm_num [wsum])
    (by intro pw hpw; simp [consumed, consumedAux, min_def] at hpw
        rcases hpw with h | h <;> simp [h] <;> norm_num)

/-- C5: when a side's total depth is positive yet below the target, every
level of the side is consumed, the filled quantity equals the side's total
depth (not the target), and the side's weighted price is total notional
over total depth. -/
theorem partial_depth_fill (ob : Orderbook) (t : ℚ) :
    ((∀ pq ∈ ob.bids, 0 ≤ pq.2) → 0 < wsum ob.bids → wsum ob.bids < t →
      consumed ob.bids t = ob.bids ∧
      (sideFill ob.bids t).1 = wsum ob.bids ∧
      (calculate_orderbook_spread ob t).bid_price =
        vsum ob.bids / wsum ob.bids) ∧
    ((∀ pq ∈ ob.asks, 0 ≤ pq.2) → 0 < wsum ob.asks → wsum ob.asks < t →
      consumed ob.asks t = ob.asks ∧
      (sideFill ob.asks t).1 = wsum ob.asks ∧
      (calculate_orderbook_spread ob t).ask_price =
        vsum ob.asks / wsum ob.asks) :=
  ⟨fun h1 h2 h3 => side_exhaustion ob.bids t h1 h2 h3,
   fun h1 h2 h3 => side_exhaustion ob.asks t h1 h2 h3⟩

/-- C5 witness: bids `[(100,1)]` with total depth 1 < target 2. -/
theorem partial_depth_fill_witness :
    consumed [(100, 1)] 2 = [(100, 1)] ∧
    (sideFill [(100, 1)] 2).1 = wsum [(100, 1)] ∧
    (calculate_orderbook_spread ⟨[(100, 1)], []⟩ 2).bid_price =
      vsum [(100, 1)] / wsum [(100, 1)] :=
  (partial_depth_fill ⟨[(100, 1)], []⟩ 2).1
    (by intro pq hpq; simp at hpq; simp [hpq])
    (by norm_num [wsum])
    (by norm_num [wsum])

/-- C10: when both sides fill a positive quantity but one side's weighted
average price is exactly 0 (all consumed levels priced 0), the `Decimal`
truthiness test treats that side as absent: spread and mid price are 0. -/
theorem zero_price_indistinguishable (ob : Orderbook) (t : ℚ)
    (hb : 0 < (sideFill ob.bids t).1) (ha : 0 < (sideFill ob.asks t).1)
    (h0 : (calculate_orderbook_spread ob t).bid_price = 0 ∨
          (calculate_orderbook_spread ob t).ask_price = 0) :
    (calculate_orderbook_spread ob t).spread = 0 ∧
      (calculate_orderbook_spread ob t).mid_price = 0 := by
  rcases h0 with h0 | h0
  · exact spread_zero_of_bid_zero ob t h0
  · exact spread_zero_of_ask_zero ob t h0

/-- C10 witness: bids `[(0,5)]` (price 0), asks `[(101,2)]`, target 2:
both sides fill 2 units, yet spread and mid price are 0. -/
theorem zero_price_indistinguishable_witness :
    (calculate_orderbook_spread ⟨[(0, 5)], [(101, 2)]⟩ 2).spread = 0 ∧
      (calculate_orderbook_spread ⟨[(0, 5)], [(101, 2)]⟩ 2).mid_price = 0 :=
  zero_price_indistinguishable ⟨[(0, 5)], [(101, 2)]⟩ 2
    (by norm_num [sideFill, fillAcc, min_def])
    (by norm_num [sideFill, fillAcc, min_def])
    (Or.inl (by norm_num [calculate_orderbook_spread, sideAvg, sideFill,
      fillAcc, min_def]))

/-- Looking up a key of a key-indexed map recovers that key's value. -/
theorem lookup_map_self {α : Type} (f : String → α) :
    ∀ (l : List String) (key : String), key ∈ l →
      (l.map (fun k => (k, f k))).lookup key = some (f key) := by
  intro l
  induction l with
  | nil => intro key h; simp at h
  | cons a tl ih =>
      intro key h
      by_cases hk : key = a
      · subst hk; simp [List.lookup]
      · have htl : key ∈ tl := by
          rcases List.mem_cons.mp h with h1 | h1
          · exact absurd h1 hk
          · exact h1
        have hbeq : (key == a) = false := beq_eq_false_iff_ne.mpr hk
        simp [List.lookup, hbeq]
        exact ih key htl

/-- With no append failing, the run appends every record in order. -/
theorem runAppends_noFail (l : List (String × MetricRecord)) :
    runAppends (fun _ => false) l = (l, none) := by
  induction l with
  | nil => rfl
  | cons hd tl ih => obtain ⟨f, r⟩ := hd; simp [runAppends, ih]

/-- The run appends exactly the records before the first failing file and
reports that file. -/
theorem runAppends_eq (fail : String → Bool)
    (l : List (String × MetricRecord)) :
    runAppends fail l =
      (l.takeWhile (fun p => ! fail p.1),
       (l.find? (fun p => fail p.1)).map Prod.fst) := by
  induction l with
  | nil => rfl
  | cons hd tl ih =>
      obtain ⟨f, r⟩ := hd
      by_cases h : fail f
      · simp [runAppends, h, List.takeWhile_cons, List.find?_cons]
      · simp [runAppends, h, List.takeWhile_cons, List.find?_cons, ih]

/-- An empty order book prices both sides, spread and mid at 0. -/
theorem spread_of_empty (t : ℚ) :
    calculate_orderbook_spread Orderbook.empty t = ⟨0, 0, 0, 0⟩ := by
  simp [calculate_orderbook_spread, Orderbook.empty, sideAvg_nil]

/-- C1: for every per-operation outcome, `fetch_all_data` returns a bundle
whose keys are exactly the seven operations in order, each failed
operation recorded as `none` and each successful one as its payload; being
a total function, it raises nothing to its caller. -/
theorem fetch_all_data_isolates {ε α : Type} (gathered : String → Except ε α) :
    (fetch_all_data gathered).map Prod.fst = opNames ∧
    ∀ key ∈ opNames, (fetch_all_data gathered).lookup key =
      some (gathered key).toOption := by
  have hfd : fetch_all_data gathered =
      opNames.map (fun k => (k, (gathered k).toOption)) := rfl
  constructor
  · rfl
  · intro key hkey
    rw [hfd]
    exact lookup_map_self (fun k => (gathered k).toOption) opNames key hkey

/-- C1 witness: only the order-book task raises; the bundle still has all
seven keys and records the order book as `none`. -/
theorem fetch_all_data_isolates_witness :
    (fetch_all_data gatherEx).map Prod.fst = opNames ∧
    (fetch_all_data gatherEx).lookup "orderbook" =
      some (gatherEx "orderbook").toOption :=
  ⟨(fetch_all_data_isolates gatherEx).1,
   (fetch_all_data_isolates gatherEx).2 "orderbook" (by simp [opNames])⟩

/-- C6 counterexample: with cycle timestamp 1000 and a basis payload
carrying its own timestamp 42, the basisRate record written by
`process_and_write` is stamped 42, not the cycle timestamp. -/
theorem cycle_timestamp_counterexample :
    ("basisRate", write_basis_rate rawBasisTs "PAXGUSDT" 1000) ∈
      (process_and_write (fun _ => false) rawBasisTs "PAXGUSDT" "PAXGUSDT"
        2 1000).1 ∧
    (write_basis_rate rawBasisTs "PAXGUSDT" 1000).lookup "timestamp" =
      some (.i 42) ∧
    JVal.i 42 ≠ JVal.i 1000 := by
  refine ⟨?_, ?_, by simp⟩
  · rw [process_and_write, runAppends_noFail]
    simp [cycleRecords]
  · simp [write_basis_rate, rawBasisTs, rawNone, List.lookup]

/-- C6 (amended): the price, fundingRate, volume24h and spread records
always carry the cycle timestamp; the basisRate and openInterest records
do so whenever their payload entries carry no timestamp of their own (in
particular when those fetches failed) — otherwise they are stamped with
the payload's timestamp. -/
theorem cycle_timestamp_amended (raw : RawData) (symbol pair : String)
    (target_oz : ℚ) (ts : ℤ)
    (hb : ∀ b ∈ raw.basis.getD [], b.timestamp = none)
    (ho : ∀ oi ∈ raw.open_interest_hist.getD [], oi.timestamp = none) :
    (process_and_write (fun _ => false) raw symbol pair target_oz ts).1.map
        (fun rec => rec.2.lookup "timestamp") =
      List.replicate 6 (some (.i ts)) := by
  rw [process_and_write, runAppends_noFail]
  have hbasis : (write_basis_rate raw pair ts).lookup "timestamp" =
      some (.i ts) := by
    cases hcase : raw.basis.getD [] with
    | nil => simp [write_basis_rate, hcase, List.lookup]
    | cons b bs =>
        have hb0 : b.timestamp = none := hb b (by rw [hcase]; exact List.mem_cons_self _ _)
        simp [write_basis_rate, hcase, hb0, List.lookup]
  have hoi : (write_open_interest raw symbol ts).lookup "timestamp" =
      some (.i ts) := by
    cases hcase : raw.open_interest_hist.getD [] with
    | nil => simp [write_open_interest, hcase, List.lookup]
    | cons oi os =>
        have ho0 : oi.timestamp = none := ho oi (by rw [hcase]; exact List.mem_cons_self _ _)
        simp [write_open_interest, hcase, ho0, List.lookup]
  simp [cycleRecords, write_price, write_funding_rate, write_volume,
    write_spread, List.lookup, hbasis, hoi, List.replicate]

/-- C6 witness: a cycle where every fetch failed carries the cycle
timestamp 1000 on all six records. -/
theorem cycle_timestamp_amended_witness :
    (process_and_write (fun _ => false) rawNone "PAXGUSDT" "PAXGUSDT"
        2 1000).1.map (fun rec => rec.2.lookup "timestamp") =
      List.replicate 6 (some (.i 1000)) :=
  cycle_timestamp_amended rawNone "PAXGUSDT" "PAXGUSDT" 2 1000
    (by simp [rawNone]) (by simp [rawNone])

/-- C7 counterexample: when only the price file's append raises, the whole
cycle aborts — no record at all is appended (in particular none of the
five sibling records), and the error escapes `process_and_write`. -/
theorem append_abort_counterexample :
    (process_and_write failPrice rawNone "PAXGUSDT" "PAXGUSDT" 2 0).1 = [] ∧
    (process_and_write failPrice rawNone "PAXGUSDT" "PAXGUSDT" 2 0).2 =
      some "price" := by
  constructor <;> simp [process_and_write, cycleRecords, runAppends, failPrice]

/-- C7 (amended): `_append_jsonl` catches nothing, so an I/O error on one
series' append propagates out of `process_and_write`: exactly the records
preceding the first failing series are appended and the failing series is
reported; the records after it are not built-and-written. -/
theorem append_abort_amended (fail : String → Bool) (raw : RawData)
    (symbol pair : String) (target_oz : ℚ) (ts : ℤ) :
    process_and_write fail raw symbol pair target_oz ts =
      ((cycleRecords raw symbol pair target_oz ts).takeWhile
          (fun p => ! fail p.1),
       ((cycleRecords raw symbol pair target_oz ts).find?
          (fun p => fail p.1)).map Prod.fst) :=
  runAppends_eq fail (cycleRecords raw symbol pair target_oz ts)

/-- C8: the funding-rate record carries the premium index's last funding
rate whenever that string is nonempty, and falls back to the first
funding-rate-history entry exactly when it is the empty string (also when
the premium-index fetch failed, whose dict default is the empty string) —
an empty-string test, not a null test. -/
theorem funding_rate_fallback (raw : RawData) (symbol : String) (ts : ℤ) :
    (((raw.premium_index.bind PremiumIndex.lastFundingRate).getD "") ≠ "" →
      (write_funding_rate raw symbol ts).lookup "fundingRate" =
        some (.s ((raw.premium_index.bind PremiumIndex.lastFundingRate).getD ""))) ∧
    (∀ e rest,
      ((raw.premium_index.bind PremiumIndex.lastFundingRate).getD "") = "" →
      raw.funding_rate = some (e :: rest) →
      (write_funding_rate raw symbol ts).lookup "fundingRate" =
        some (.s (e.fundingRate.getD ""))) := by
  constructor
  · intro hne
    simp [write_funding_rate, funding_rate_value, hne, List.lookup]
  · intro e rest hempty hfl
    simp [write_funding_rate, funding_rate_value, hempty, hfl, List.lookup]

/-- C8 witness: premium index present with `lastFundingRate` the empty
string (not missing), history `[{fundingRate: "0.0001"}]`: the record
falls back to `"0.0001"`. -/
theorem funding_rate_fallback_witness :
    (write_funding_rate rawFundingEmpty "PAXGUSDT" 1000).lookup
        "fundingRate" = some (.s "0.0001") :=
  (funding_rate_fallback rawFundingEmpty "PAXGUSDT" 1000).2
    ⟨some "0.0001"⟩ [] (by simp [rawFundingEmpty, rawNone])
    (by simp [rawFundingEmpty, rawNone])

/-- C9: in a cycle where the order-book fetch failed but ticker and kline
succeeded, the price record still carries the candle close with mid price
0, the spread record carries spread 0, and the volume24h record is built
normally from the ticker. -/
theorem orderbook_failure_degrades (raw : RawData) (symbol : String)
    (target_oz : ℚ) (ts : ℤ) (row : List ℚ) (rest : List (List ℚ))
    (t : Ticker)
    (hob : raw.orderbook = none)
    (hk : raw.kline = some (row :: rest))
    (hrow : row.length > 4)
    (ht : raw.ticker = some t) :
    write_price raw target_oz ts =
      [("timestamp", .i ts), ("price", .n (row.getD 4 0)),
       ("mid_price", .n 0)] ∧
    write_spread raw target_oz symbol ts =
      [("symbol", .s symbol), ("spread", .n 0), ("timestamp", .i ts)] ∧
    write_volume raw symbol ts =
      [("symbol", .s symbol), ("volume", .s (t.volume.getD "")),
       ("quoteVolume", .s (t.quoteVolume.getD "")),
       ("timestamp", .i ts)] := by
  refine ⟨?_, ?_, ?_⟩
  · simp [write_price, hob, hk, hrow, spread_of_empty]
  · simp [write_spread, hob, spread_of_empty]
  · simp [write_volume, ht]

/-- C9 witness: order book `None`, kline close 5, ticker volumes
`"123.4"` / `"56789.0"`. -/
theorem orderbook_failure_degrades_witness :
    write_price rawTickerKline 2 1000 =
      [("timestamp", .i 1000), ("price", .n 5), ("mid_price", .n 0)] ∧
    write_spread rawTickerKline 2 "PAXGUSDT" 1000 =
      [("symbol", .s "PAXGUSDT"), ("spread", .n 0),
       ("timestamp", .i 1000)] ∧
    write_volume rawTickerKline "PAXGUSDT" 1000 =
      [("symbol", .s "PAXGUSDT"), ("volume", .s "123.4"),
       ("quoteVolume", .s "56789.0"), ("timestamp", .i 1000)] := by
  have h := orderbook_failure_degrades rawTickerKline "PAXGUSDT" 2 1000
    [1, 2, 3, 4, 5] [] ⟨some "123.4", some "56789.0"⟩
    (by simp [rawTickerKline, rawNone]) (by simp [rawTickerKline, rawNone])
    (by simp) (by simp [rawTickerKline, rawNone])
  refine ⟨?_, h.2.1, ?_⟩
  · rw [h.1]; norm_num
  · rw [h.2.2]; rfl

end PaxgMonitor
